import Mathlib

/-!
Verification of the create2crunch search engine (`src/lib.rs`).

The development shallowly embeds the Rust source: machine integers become
`Nat` with explicit reduction modulo `2^w` where overflow matters, byte
arrays become `List Nat` (each element is one byte), and the incremental
keccak-256 API of `tiny_keccak` becomes an explicit sponge state with
byte-at-a-time absorption.
-/

namespace Create2Crunch

/-! ## Keccak-256 (the `tiny_keccak` sponge used by `cpu` and `gpu`) -/

/-- 64-bit left rotation on a `Nat` representing a `u64` lane. -/
def rotl64 (x n : Nat) : Nat :=
  ((x <<< (n % 64)) % 2 ^ 64) ||| (x >>> (64 - n % 64))

/-- Keccak round constants for the 24 rounds of keccak-f[1600]. -/
def keccakRC : List Nat :=
  [0x0000000000000001, 0x0000000000008082, 0x800000000000808a, 0x8000000080008000,
   0x000000000000808b, 0x0000000080000001, 0x8000000080008081, 0x8000000000008009,
   0x000000000000008a, 0x0000000000000088, 0x0000000080008009, 0x000000008000000a,
   0x000000008000808b, 0x800000000000008b, 0x8000000000008089, 0x8000000000008003,
   0x8000000000008002, 0x8000000000000080, 0x000000000000800a, 0x800000008000000a,
   0x8000000080008081, 0x8000000000008080, 0x0000000080000001, 0x8000000080008008]

/-- Rotation offsets of the rho step, indexed by lane `x + 5*y`, one row
(`y` fixed) at a time. -/
def rhoOffsets : List Nat :=
  [0, 1, 62, 28, 27] ++ [36, 44, 6, 55, 20] ++ [3, 10, 43, 25, 39] ++
    [41, 45, 15, 21, 8] ++ [18, 2, 61, 56, 14]

/-- Theta step of keccak-f[1600]; lanes are indexed by `x + 5*y`. -/
def keccakTheta (a : List Nat) : List Nat :=
  let c := (List.range 5).map fun x =>
    Nat.xor (a.getD x 0) (Nat.xor (a.getD (x + 5) 0)
      (Nat.xor (a.getD (x + 10) 0) (Nat.xor (a.getD (x + 15) 0) (a.getD (x + 20) 0))))
  (List.range 25).map fun i =>
    let x := i % 5
    Nat.xor (a.getD i 0) (Nat.xor (c.getD ((x + 4) % 5) 0) (rotl64 (c.getD ((x + 1) % 5) 0) 1))

/-- Combined rho and pi steps: output lane `(x', y')` with `x' = y`,
`y' = (2x + 3y) % 5` receives the rotated source lane `(x, y)`. -/
def keccakRhoPi (a : List Nat) : List Nat :=
  (List.range 25).map fun j =>
    let y := j % 5
    let x := (3 * (j / 5) + y) % 5
    let src := x + 5 * y
    rotl64 (a.getD src 0) (rhoOffsets.getD src 0)

/-- Chi step: `a[x,y] := a[x,y] xor ((not a[x+1,y]) and a[x+2,y])`. -/
def keccakChi (b : List Nat) : List Nat :=
  (List.range 25).map fun i =>
    let x := i % 5
    let row := i - x
    Nat.xor (b.getD i 0)
      (Nat.land (Nat.xor (b.getD ((x + 1) % 5 + row) 0) (2 ^ 64 - 1))
        (b.getD ((x + 2) % 5 + row) 0))

/-- One round of keccak-f[1600] with round constant `rc`. -/
def keccakRound (a : List Nat) (rc : Nat) : List Nat :=
  let a := keccakTheta a
  let a := keccakRhoPi a
  let a := keccakChi a
  a.set 0 (Nat.xor (a.getD 0 0) rc)

/-- The full keccak-f[1600] permutation (24 rounds). -/
def keccakF (a : List Nat) : List Nat :=
  keccakRC.foldl keccakRound a

/-- Rate of keccak-256 in bytes, as in `tiny_keccak`'s `Keccak::v256()`. -/
def keccakRateBytes : Nat := 136

/-- The incremental hasher state of `tiny_keccak`: 25 lanes of 64 bits each,
viewed as 200 bytes little-endian per lane, plus the absorption offset. -/
structure KeccakState where
  lanes : List Nat
  offset : Nat
  deriving Repr, DecidableEq

/-- XOR the byte `b` into byte position `pos` of the lane array
(lane `pos / 8`, byte `pos % 8` little-endian), as `tiny_keccak::xorin`. -/
def xorByteAt (lanes : List Nat) (pos b : Nat) : List Nat :=
  lanes.set (pos / 8) (Nat.xor (lanes.getD (pos / 8) 0) (b <<< (8 * (pos % 8))))

/-- The fresh hasher produced by `Keccak::v256()`. -/
def keccakInit : KeccakState := ⟨List.replicate 25 0, 0⟩

/-- Absorb one input byte: XOR it in at the current offset and run the
permutation when a full rate block has been absorbed. -/
def absorbByte (s : KeccakState) (b : Nat) : KeccakState :=
  let lanes := xorByteAt s.lanes s.offset b
  if s.offset + 1 = keccakRateBytes then ⟨keccakF lanes, 0⟩
  else ⟨lanes, s.offset + 1⟩

/-- `Hasher::update`: absorb a byte string into the sponge state. -/
def keccakUpdate (s : KeccakState) (input : List Nat) : KeccakState :=
  input.foldl absorbByte s

/-- `Hasher::finalize` for `Keccak::v256()`: pad with the keccak delimiter
`0x01` and final bit `0x80`, permute, and squeeze the 32-byte digest. -/
def keccakFinalize (s : KeccakState) : List Nat :=
  let lanes := xorByteAt s.lanes s.offset 0x01
  let lanes := xorByteAt lanes (keccakRateBytes - 1) 0x80
  let lanes := keccakF lanes
  (List.range 32).map fun i => (lanes.getD (i / 8) 0 >>> (8 * (i % 8))) % 256

/-- One-shot keccak-256 of a byte string. -/
def keccak256 (msg : List Nat) : List Nat :=
  keccakFinalize (keccakUpdate keccakInit msg)

/-! ## Shared constants and the `Config` record (`src/lib.rs`) -/

/-- `WORK_SIZE` from `src/lib.rs`. -/
def WORK_SIZE : Nat := 0x20000000

/-- `CONTROL_CHARACTER` from `src/lib.rs`. -/
def CONTROL_CHARACTER : Nat := 0xff

/-- `MAX_INCREMENTER` from `src/lib.rs`. -/
def MAX_INCREMENTER : Nat := 0xffffffffffff

/-- The `Config` struct.  Byte arrays are `List Nat`; the length invariants
(20/20/32) are established by `configNew` and carried as hypotheses. -/
structure Config where
  factory_address : List Nat
  calling_address : List Nat
  init_code_hash : List Nat
  gpu_device : Nat
  leading_zeroes_threshold : Nat
  total_zeroes_threshold : Nat
  deriving Repr, DecidableEq

/-! ## Config construction (`Config::new`) -/

/-- Value of one hex digit, as accepted by `const_hex::decode`. -/
def hexVal (c : Char) : Option Nat :=
  if '0' ≤ c ∧ c ≤ '9' then some (c.toNat - '0'.toNat)
  else if 'a' ≤ c ∧ c ≤ 'f' then some (c.toNat - 'a'.toNat + 10)
  else if 'A' ≤ c ∧ c ≤ 'F' then some (c.toNat - 'A'.toNat + 10)
  else none

/-- Decode an even-length run of hex digits into bytes; odd length or a
non-hex character fails, as in `const_hex::decode`. -/
def hexPairs : List Char → Option (List Nat)
  | [] => some []
  | [_] => none
  | a :: b :: rest =>
    match hexVal a, hexVal b, hexPairs rest with
    | some ha, some hb, some tl => some ((16 * ha + hb) :: tl)
    | _, _, _ => none

/-- `const_hex::decode` strips one optional `0x`/`0X` prefix. -/
def stripHexPrefix : List Char → List Char
  | '0' :: 'x' :: rest => rest
  | '0' :: 'X' :: rest => rest
  | s => s

/-- `const_hex::decode` on a string, yielding bytes. -/
def hexDecode (s : String) : Option (List Nat) :=
  hexPairs (stripHexPrefix s.data)

/-- `str::parse::<u8>`: optional leading `+`, then one or more decimal
digits, value at most 255. -/
def parseU8 (s : String) : Option Nat :=
  let ds := match s.data with
    | '+' :: rest => rest
    | cs => cs
  if ds.isEmpty then none
  else if ds.all fun c => '0' ≤ c ∧ c ≤ '9' then
    let v := ds.foldl (fun acc c => acc * 10 + (c.toNat - '0'.toNat)) 0
    if v < 256 then some v else none
  else none

/-- `Config::new`: validate the argument list (the first element is the
program name, skipped as by `args.next()`) and build the `Config`. -/
def configNew (argv : List String) : Except String Config :=
  let args := argv.drop 1
  match args.get? 0, args.get? 1, args.get? 2 with
  | none, _, _ => .error "didn't get a factory_address argument"
  | some _, none, _ => .error "didn't get a calling_address argument"
  | some _, some _, none => .error "didn't get an init_code_hash argument"
  | some factoryStr, some callerStr, some hashStr =>
    let gpuStr := (args.get? 3).getD "255"
    let lzStr := (args.get? 4).getD "3"
    let tzStr := (args.get? 5).getD "5"
    match hexDecode factoryStr with
    | none => .error "could not decode factory address argument"
    | some factoryVec =>
    match hexDecode callerStr with
    | none => .error "could not decode calling address argument"
    | some callerVec =>
    match hexDecode hashStr with
    | none => .error "could not decode initialization code hash argument"
    | some hashVec =>
    if factoryVec.length ≠ 20 then .error "invalid length for factory address argument"
    else if callerVec.length ≠ 20 then .error "invalid length for calling address argument"
    else if hashVec.length ≠ 32 then
      .error "invalid length for initialization code hash argument"
    else
    match parseU8 gpuStr with
    | none => .error "invalid gpu device value"
    | some gpuDevice =>
    match parseU8 lzStr with
    | none => .error "invalid leading zeroes threshold value supplied"
    | some lz =>
    match parseU8 tzStr with
    | none => .error "invalid total zeroes threshold value supplied"
    | some tz =>
    if lz > 20 then
      .error "invalid value for leading zeroes threshold argument. (valid: 0..=20)"
    else if tz > 20 ∧ tz ≠ 255 then
      .error "invalid value for total zeroes threshold argument. (valid: 0..=20 | 255)"
    else .ok ⟨factoryVec, callerVec, hashVec, gpuDevice, lz, tz⟩

/-! ## CPU engine (`cpu`) -/

/-- Little-endian byte encoding of `n` on `w` bytes (`u64::to_le_bytes`
truncated as needed). -/
def leBytes (w n : Nat) : List Nat :=
  (List.range w).map fun i => (n >>> (8 * i)) % 256

/-- The 47-byte round header built by `cpu`:
`0xff ++ factory ++ caller ++ salt_random_segment`. -/
def cpuHeader (cfg : Config) (rand6 : List Nat) : List Nat :=
  [CONTROL_CHARACTER] ++ cfg.factory_address ++ cfg.calling_address ++ rand6

/-- The 6-byte nonce segment used per candidate:
`salt.to_le_bytes()[..6]`. -/
def nonceSegment (n : Nat) : List Nat :=
  (leBytes 8 n).take 6

/-- Per-candidate digest exactly as the CPU engine computes it: absorb the
47-byte header once, clone the state, absorb the 6-byte nonce segment and
the 32-byte init-code hash, and finalize. -/
def cpuDigest (cfg : Config) (rand6 : List Nat) (n : Nat) : List Nat :=
  let hashHeader := keccakUpdate keccakInit (cpuHeader cfg rand6)
  let h := keccakUpdate hashHeader (nonceSegment n)
  let h := keccakUpdate h cfg.init_code_hash
  keccakFinalize h

/-- The candidate address: bytes `12..32` of the per-candidate digest
(`&res[12..]`). -/
def cpuAddress (cfg : Config) (rand6 : List Nat) (n : Nat) : List Nat :=
  (cpuDigest cfg rand6 n).drop 12

/-- The 85-byte message
`0xff ++ factory ++ caller ++ rand6 ++ nonce6 ++ init_code_hash`. -/
def cpuFullMessage (cfg : Config) (rand6 : List Nat) (n : Nat) : List Nat :=
  cpuHeader cfg rand6 ++ nonceSegment n ++ cfg.init_code_hash

/-- The list of nonce values the FanOut phase evaluates:
`(0..MAX_INCREMENTER).into_par_iter()`, an exclusive range. -/
def fanOutNonces : List Nat :=
  List.range MAX_INCREMENTER

/-- The zero-byte scan of the CPU path (`src/lib.rs` lines 187-197):
left-to-right over the indexed bytes, `total` counts zero bytes and
`leading` (initially the sentinel 21) is set to the index of the first
non-zero byte. -/
def cpuZeroScan : List Nat → Nat → Nat → Nat → Nat × Nat
  | [], _, total, leading => (total, leading)
  | b :: rest, i, total, leading =>
    if b = 0 then cpuZeroScan rest (i + 1) (total + 1) leading
    else if leading = 21 then cpuZeroScan rest (i + 1) total i
    else cpuZeroScan rest (i + 1) total leading

/-- `(total, leading)` for an address on the CPU path. -/
def cpuZeroMetrics (address : List Nat) : Nat × Nat :=
  cpuZeroScan address 0 0 21

/-- The zero-byte scan of the GPU drain (`src/lib.rs` lines 551-561),
textually identical to the CPU one. -/
def gpuZeroScan : List Nat → Nat → Nat → Nat → Nat × Nat
  | [], _, total, leading => (total, leading)
  | b :: rest, i, total, leading =>
    if b = 0 then gpuZeroScan rest (i + 1) (total + 1) leading
    else if leading = 21 then gpuZeroScan rest (i + 1) total i
    else gpuZeroScan rest (i + 1) total leading

/-- `(total, leading)` for an address on the GPU path. -/
def gpuZeroMetrics (address : List Nat) : Nat × Nat :=
  gpuZeroScan address 0 0 21

/-- The per-candidate accept/report decision of the CPU path: `none` when
the candidate is discarded (fewer than three zero bytes, or the reward
table has no entry for `leading * 20 + total`), otherwise the reward label
of the reported line.  The reward table is the abstract lookup
`rewards : Nat → Option String` (`Reward::get`). -/
def cpuCandidateReport (rewards : Nat → Option String) (address : List Nat) :
    Option String :=
  if (cpuZeroMetrics address).1 < 3 then none
  else
    match rewards ((cpuZeroMetrics address).2 * 20 + (cpuZeroMetrics address).1) with
    | none => none
    | some r => some r

/-! ## GPU engine (`gpu`) -/

/-- `2^32`, the modulus of the `u32` device nonce word. -/
def NONCE_MOD : Nat := 2 ^ 32

/-- `nonce[0] += 1` on the `u32` nonce word (release-mode wrapping). -/
def nonceStep (n : Nat) : Nat := (n + 1) % NONCE_MOD

/-- The state set up at the start of each outer `gpu` iteration: a fresh
4-byte random salt, the nonce word reset to a random `u32`, and the
64-slot solutions buffer cleared to zero. -/
structure GpuRound where
  salt : List Nat
  nonce : Nat
  solutions : List Nat
  deriving Repr, DecidableEq

/-- RollSegment: `FixedBytes::<4>::random()`, `nonce = rng.gen::<u32>()`,
`solutions.fill(0)` on the 64-slot buffer. -/
def rollSegment (salt4 : List Nat) (rnd : Nat) : GpuRound :=
  ⟨salt4, rnd % NONCE_MOD, List.replicate 64 0⟩

/-- The sequence of nonce-word values the inner dispatch loop feeds to the
kernel, `kernel` giving the solutions buffer each dispatch returns:
the loop stops after the first dispatch whose buffer holds a non-zero
word, otherwise increments the nonce.  `fuel` bounds the unrolling. -/
def dispatchTrace (kernel : Nat → List Nat) (n : Nat) : Nat → List Nat
  | 0 => []
  | fuel + 1 =>
    if (kernel n).any (· ≠ 0) then [n]
    else n :: dispatchTrace kernel (nonceStep n) fuel

/-- The inner dispatch loop's result: the nonce word at the matching
dispatch together with the solutions read back, or `none` if `fuel`
dispatches all came back empty. -/
def innerSearch (kernel : Nat → List Nat) (n : Nat) : Nat → Option (Nat × List Nat)
  | 0 => none
  | fuel + 1 =>
    if (kernel n).any (· ≠ 0) then some (n, kernel n)
    else innerSearch kernel (nonceStep n) fuel

/-- The 85-byte host-side verification message of the Drain phase:
`0xff ++ factory ++ caller ++ salt4 ++ solution.to_le_bytes() ++
init_code_hash`. -/
def gpuSolutionMessage (cfg : Config) (salt4 : List Nat) (solution : Nat) :
    List Nat :=
  [CONTROL_CHARACTER] ++ cfg.factory_address ++ cfg.calling_address ++ salt4 ++
    leBytes 8 solution ++ cfg.init_code_hash

/-- The host-side re-derived address of a solution: bytes 12..32 of the
keccak-256 digest of the 85-byte verification message. -/
def gpuSolutionAddress (cfg : Config) (salt4 : List Nat) (solution : Nat) :
    List Nat :=
  (keccak256 (gpuSolutionMessage cfg salt4 solution)).drop 12

/-- The reward-table key `leading * 20 + total` of a solution's re-derived
address. -/
def gpuSolutionKey (cfg : Config) (salt4 : List Nat) (solution : Nat) : Nat :=
  (gpuZeroMetrics (gpuSolutionAddress cfg salt4 solution)).2 * 20 +
    (gpuZeroMetrics (gpuSolutionAddress cfg salt4 solution)).1

/-- Host-side processing of one solution word in the Drain phase: zero
words are skipped; a non-zero word is re-hashed into an address, whose
metrics pick the reward label, defaulting to `"0"` on an unmapped key
(`rewards.get(&key).unwrap_or("0")`). -/
def gpuProcessSolution (rewards : Nat → Option String) (cfg : Config)
    (salt4 : List Nat) (solution : Nat) : Option (List Nat × String) :=
  if solution = 0 then none
  else
    some (gpuSolutionAddress cfg salt4 solution,
      (rewards (gpuSolutionKey cfg salt4 solution)).getD "0")

/-- The Drain phase over the whole solutions buffer
(`for &solution in &solutions`). -/
def gpuDrain (rewards : Nat → Option String) (cfg : Config) (salt4 : List Nat)
    (solutions : List Nat) : List (List Nat × String) :=
  solutions.filterMap (gpuProcessSolution rewards cfg salt4)

/-- `local_work_size = std::cmp::min(max_wg_size as u32, 512)`; the
`as u32` cast truncates the `usize` modulo `2^32`. -/
def localWorkSize (maxWgSize : Nat) : Nat :=
  min (maxWgSize % 2 ^ 32) 512

/-- `global_work_size = ((WORK_SIZE / 8 + local - 1) / local) * local`. -/
def globalWorkSize (maxWgSize : Nat) : Nat :=
  ((WORK_SIZE / 8 + localWorkSize maxWgSize - 1) / localWorkSize maxWgSize) *
    localWorkSize maxWgSize

/-! ## Kernel source templating (`mk_kernel_src`) -/

/-- One `#define S_<i> <x>u` line written by `mk_kernel_src`. -/
def defineByteLine (i x : Nat) : String :=
  "#define S_" ++ toString i ++ " " ++ toString x ++ "u\n"

/-- The `(index, byte)` pairs `mk_kernel_src` iterates over:
`factory.chain(caller).enumerate().chain(hash.enumerate().map(|(i,x)| (i+52,x)))`. -/
def kernelBytePairs (cfg : Config) : List (Nat × Nat) :=
  (cfg.factory_address ++ cfg.calling_address).enum ++
    cfg.init_code_hash.enum.map fun p => (p.1 + 52, p.2)

/-- The byte `#define` lines, one per pair, named `S_{i+1}`. -/
def kernelByteDefs (cfg : Config) : List String :=
  (kernelBytePairs cfg).map fun p => defineByteLine (p.1 + 1) p.2

/-- `mk_kernel_src`: the byte defines, the two threshold defines, then the
unmodified kernel source text (`KERNEL_SRC` is the external kernel file,
passed in as `kernelSrc`). -/
def mkKernelSrc (cfg : Config) (kernelSrc : String) : String :=
  String.join (kernelByteDefs cfg) ++
    ("#define LEADING_ZEROES " ++ toString cfg.leading_zeroes_threshold ++ "\n") ++
    ("#define TOTAL_ZEROES " ++ toString cfg.total_zeroes_threshold ++ "\n") ++
    kernelSrc

/-! ## Helper lemmas -/

/-- Absorbing a concatenation equals absorbing the two pieces in turn:
the state after `update(a); update(b)` is the state after `update(a ++ b)`,
so continuing from a cloned partially-absorbed state is byte-identical to
hashing the whole message at once. -/
theorem keccakUpdate_append (s : KeccakState) (a b : List Nat) :
    keccakUpdate s (a ++ b) = keccakUpdate (keccakUpdate s a) b := by
  simp [keccakUpdate, List.foldl_append]

/-- A sample all-zero configuration used by witnesses. -/
def cfgZero : Config :=
  ⟨List.replicate 20 0, List.replicate 20 0, List.replicate 32 0, 255, 3, 5⟩

/-! ## C1 -/

/-- C1: for every configuration and every 48-bit nonce `n`, the CPU
engine's per-candidate digest (absorb the 47-byte header once, clone the
state, absorb the 6-byte little-endian nonce segment and the 32-byte
init-code hash, finalize) equals the keccak-256 digest of the single
85-byte message `0xFF ++ factory ++ caller ++ rand6 ++ nonce6 ++
init_code_hash`, and the candidate address is bytes 12..32 of that
digest. -/
theorem cpu_digest_eq_oneshot (cfg : Config) (rand6 : List Nat) (n : Nat)
    (hf : cfg.factory_address.length = 20) (hc : cfg.calling_address.length = 20)
    (hh : cfg.init_code_hash.length = 32) (hr : rand6.length = 6)
    (hn : n < 2 ^ 48) :
    cpuDigest cfg rand6 n = keccak256 (cpuFullMessage cfg rand6 n) ∧
    cpuAddress cfg rand6 n = (keccak256 (cpuFullMessage cfg rand6 n)).drop 12 ∧
    (cpuHeader cfg rand6).length = 47 ∧
    (cpuFullMessage cfg rand6 n).length = 85 ∧
    nonceSegment n = leBytes 6 n := by
  have hdig : cpuDigest cfg rand6 n = keccak256 (cpuFullMessage cfg rand6 n) := by
    simp [cpuDigest, keccak256, cpuFullMessage, keccakUpdate_append]
  have hseg : nonceSegment n = leBytes 6 n := by
    simp [nonceSegment, leBytes, ← List.map_take, List.take_range]
  refine ⟨hdig, by rw [cpuAddress, hdig], ?_, ?_, hseg⟩
  · simp [cpuHeader, hf, hc, hr]
  · simp [cpuFullMessage, cpuHeader, hseg, leBytes, hf, hc, hh, hr]

/-- Witness for C1 at the all-zero configuration and nonce 0. -/
theorem cpu_digest_eq_oneshot_witness :
    (cfgZero.factory_address.length = 20 ∧ cfgZero.calling_address.length = 20 ∧
      cfgZero.init_code_hash.length = 32 ∧ (List.replicate 6 0).length = 6 ∧
      (0 : Nat) < 2 ^ 48) ∧
    (cpuDigest cfgZero (List.replicate 6 0) 0 =
        keccak256 (cpuFullMessage cfgZero (List.replicate 6 0) 0) ∧
      cpuAddress cfgZero (List.replicate 6 0) 0 =
        (keccak256 (cpuFullMessage cfgZero (List.replicate 6 0) 0)).drop 12 ∧
      (cpuHeader cfgZero (List.replicate 6 0)).length = 47 ∧
      (cpuFullMessage cfgZero (List.replicate 6 0) 0).length = 85 ∧
      nonceSegment 0 = leBytes 6 0) :=
  ⟨⟨by decide, by decide, by decide, by decide, by norm_num⟩,
    cpu_digest_eq_oneshot cfgZero (List.replicate 6 0) 0 (by decide) (by decide)
      (by decide) (by decide) (by norm_num)⟩

/-! ## C2 -/

/-- C2 counterexample: the nonce value `0xffffffffffff = 2^48 - 1` lies in
the 48-bit space but the FanOut phase never evaluates it: the Rust range
`0..MAX_INCREMENTER` is exclusive. -/
theorem fanout_skips_max_nonce :
    (0xffffffffffff : Nat) < 2 ^ 48 ∧ fanOutNonces.count 0xffffffffffff = 0 := by
  refine ⟨by norm_num, ?_⟩
  rw [List.count_eq_zero]
  simp [fanOutNonces, List.mem_range, MAX_INCREMENTER]

/-- C2 (amended): each CPU round's FanOut phase evaluates every nonce in
`[0, 2^48 - 1)` exactly once; the single value `2^48 - 1` is never
evaluated. -/
theorem fanout_nonces_exactly_once (n : Nat) :
    fanOutNonces.count n = (if n < 2 ^ 48 - 1 then 1 else 0) ∧
    MAX_INCREMENTER = 2 ^ 48 - 1 := by
  refine ⟨?_, by norm_num [MAX_INCREMENTER]⟩
  by_cases h : n < 2 ^ 48 - 1
  · rw [if_pos h]
    refine List.count_eq_one_of_mem (List.nodup_range _) ?_
    simp only [fanOutNonces, List.mem_range, MAX_INCREMENTER]
    omega
  · rw [if_neg h, List.count_eq_zero]
    simp only [fanOutNonces, List.mem_range, MAX_INCREMENTER]
    omega

/-! ## C8 -/

/-- C8: for every device maximum work-group size `m` (positive and, as a
`u32`-representable quantity, below `2^32`, so the `as u32` cast at
`lib.rs:307` is value-preserving), the GPU engine chooses
`local = min(m, 512)` and a global work size that is `WORK_SIZE / 8`
rounded up to a multiple of `local`; the global size is an exact multiple
of the local size and at least `WORK_SIZE / 8`. -/
theorem gpu_work_sizes (m : Nat) (hm : 0 < m) (hm32 : m < 2 ^ 32) :
    localWorkSize m = min m 512 ∧
    localWorkSize m ∣ globalWorkSize m ∧
    WORK_SIZE / 8 ≤ globalWorkSize m := by
  have hmod : m % 2 ^ 32 = m := Nat.mod_eq_of_lt hm32
  have hl : 0 < localWorkSize m := by
    simp only [localWorkSize, hmod]
    omega
  refine ⟨by simp only [localWorkSize, hmod], dvd_mul_left _ _, ?_⟩
  show WORK_SIZE / 8 ≤ ((WORK_SIZE / 8 + localWorkSize m - 1) / localWorkSize m) *
    localWorkSize m
  have h1 := Nat.div_add_mod (WORK_SIZE / 8 + localWorkSize m - 1) (localWorkSize m)
  have h2 : (WORK_SIZE / 8 + localWorkSize m - 1) % localWorkSize m < localWorkSize m :=
    Nat.mod_lt _ hl
  rw [Nat.mul_comm] at h1
  generalize ((WORK_SIZE / 8 + localWorkSize m - 1) / localWorkSize m) *
    localWorkSize m = P at h1 ⊢
  omega

/-- Witness for C8 at `m = 256`. -/
theorem gpu_work_sizes_witness :
    ((0 : Nat) < 256 ∧ (256 : Nat) < 2 ^ 32) ∧
    (localWorkSize 256 = min 256 512 ∧
      localWorkSize 256 ∣ globalWorkSize 256 ∧
      WORK_SIZE / 8 ≤ globalWorkSize 256) :=
  ⟨⟨by norm_num, by norm_num⟩, gpu_work_sizes 256 (by norm_num) (by norm_num)⟩

/-! ## C3 -/

/-- The GPU drain's zero scan is the same function as the CPU one (the two
loops are textually identical). -/
theorem gpuZeroScan_eq_cpuZeroScan :
    ∀ (addr : List Nat) (i total leading : Nat),
      gpuZeroScan addr i total leading = cpuZeroScan addr i total leading := by
  intro addr
  induction addr with
  | nil => intro i total leading; rfl
  | cons b rest ih =>
    intro i total leading
    simp only [gpuZeroScan, cpuZeroScan]
    split
    · exact ih _ _ _
    · split
      · exact ih _ _ _
      · exact ih _ _ _

/-- Once `leading` has been set (to a value other than the sentinel 21),
the scan only counts zero bytes. -/
theorem cpuZeroScan_leading_set (addr : List Nat) :
    ∀ (i total leading : Nat), leading ≠ 21 →
      cpuZeroScan addr i total leading = (total + addr.count 0, leading) := by
  induction addr with
  | nil => intro i total leading _; simp [cpuZeroScan]
  | cons b rest ih =>
    intro i total leading hl
    simp only [cpuZeroScan]
    by_cases hb : b = 0
    · rw [if_pos hb, ih _ _ _ hl]
      subst hb
      rw [List.count_cons_self]
      simp only [Prod.mk.injEq]
      exact ⟨by omega, trivial⟩
    · rw [if_neg hb, if_neg hl, ih _ _ _ hl,
        List.count_cons_of_ne (fun h => hb h.symm)]

/-- While `leading` is still the sentinel 21, the scan returns the total
zero count and either the sentinel (if everything is zero) or the absolute
index of the first non-zero byte. -/
theorem cpuZeroScan_sentinel (addr : List Nat) :
    ∀ (i total : Nat), i + addr.length ≤ 21 →
      cpuZeroScan addr i total 21 =
        (total + addr.count 0,
          if ∀ b ∈ addr, b = 0 then 21 else i + addr.findIdx fun b => b ≠ 0) := by
  induction addr with
  | nil => intro i total _; simp [cpuZeroScan]
  | cons b rest ih =>
    intro i total hlen
    simp only [cpuZeroScan]
    by_cases hb : b = 0
    · rw [if_pos hb]
      rw [ih (i + 1) (total + 1) (by simp at hlen ⊢; omega)]
      subst hb
      rw [List.count_cons_self]
      simp only [Prod.mk.injEq, List.findIdx_cons]
      refine ⟨by omega, ?_⟩
      by_cases hall : ∀ x ∈ rest, x = 0
      · have hall' : ∀ x ∈ (0 : Nat) :: rest, x = 0 := by
          intro x hx
          rcases List.mem_cons.mp hx with h | h
          · exact h
          · exact hall x h
        simp only [if_pos hall, if_pos hall']
      · have hall' : ¬ ∀ x ∈ (0 : Nat) :: rest, x = 0 := by
          intro hcon
          exact hall fun x hx => hcon x (List.mem_cons_of_mem _ hx)
        simp only [if_neg hall, if_neg hall']
        norm_num
        omega
    · rw [if_neg hb]
      have h21 : i ≠ 21 := by simp at hlen; omega
      simp only [if_true]
      rw [cpuZeroScan_leading_set rest (i + 1) total i h21,
        List.count_cons_of_ne (fun h => hb h.symm)]
      have hnotall : ¬ ∀ x ∈ b :: rest, x = 0 := by
        intro hcon
        exact hb (hcon b (List.mem_cons_self b rest))
      rw [if_neg hnotall, List.findIdx_cons]
      norm_num [hb]

/-- The first non-zero byte after `k` zero bytes sits at index `k`. -/
theorem findIdx_replicate_zero_cons (k : Nat) (rest : List Nat) :
    (List.replicate k 0 ++ 1 :: rest).findIdx (fun b => b ≠ 0) = k := by
  induction k with
  | zero => simp [List.findIdx_cons]
  | succ m ihm =>
    rw [List.replicate_succ, List.cons_append, List.findIdx_cons]
    norm_num
    simpa [decide_not] using ihm

/-- An address crafted with exactly `k` leading zero bytes and `t` total
zero bytes (the remaining bytes are 1). -/
def craftedAddress (k t : Nat) : List Nat :=
  List.replicate k 0 ++ List.replicate (20 - t) 1 ++ List.replicate (t - k) 0

/-- C3: for every 20-byte address, the zero-metrics scan returns `total`
equal to the number of zero bytes and `leading` equal to the index of the
first non-zero byte (sentinel 21 when all bytes are zero); the CPU and GPU
scans agree; and an address crafted with exactly `k` leading and `t ≥ k`
total zero bytes (`t < 20`) yields `(total, leading) = (t, k)`. -/
theorem zero_metrics_spec (address : List Nat) (h20 : address.length = 20) :
    (cpuZeroMetrics address).1 = address.count 0 ∧
    (cpuZeroMetrics address).2 =
      (if ∀ b ∈ address, b = 0 then 21 else address.findIdx fun b => b ≠ 0) ∧
    gpuZeroMetrics address = cpuZeroMetrics address ∧
    (∀ k t, k ≤ t → t < 20 → cpuZeroMetrics (craftedAddress k t) = (t, k)) := by
  have hmain := cpuZeroScan_sentinel address 0 0 (by omega)
  refine ⟨?_, ?_, ?_, ?_⟩
  · simp [cpuZeroMetrics, hmain]
  · simp [cpuZeroMetrics, hmain]
  · rw [gpuZeroMetrics, cpuZeroMetrics, gpuZeroScan_eq_cpuZeroScan]
  · intro k t hkt ht20
    have hcraft := cpuZeroScan_sentinel (craftedAddress k t) 0 0
      (by simp [craftedAddress]; omega)
    rw [cpuZeroMetrics, hcraft]
    have hnotall : ¬ ∀ b ∈ craftedAddress k t, b = 0 := by
      intro hcon
      have h1 : (1 : Nat) ∈ craftedAddress k t := by
        simp [craftedAddress, List.mem_replicate]
        omega
      exact one_ne_zero (hcon 1 h1)
    rw [if_neg hnotall]
    have hcount : (craftedAddress k t).count 0 = t := by
      simp [craftedAddress, List.count_append, List.count_replicate]
      omega
    have hfind : (craftedAddress k t).findIdx (fun b => b ≠ 0) = k := by
      have hsplit : craftedAddress k t =
          List.replicate k 0 ++
            (1 :: (List.replicate (20 - t - 1) 1 ++ List.replicate (t - k) 0)) := by
        simp only [craftedAddress]
        have hrep : List.replicate (20 - t) (1 : Nat) =
            1 :: List.replicate (20 - t - 1) 1 := by
          obtain ⟨u, hu⟩ : ∃ u, 20 - t = u + 1 := ⟨20 - t - 1, by omega⟩
          rw [hu]
          simp [List.replicate_succ]
        rw [hrep]
        simp
      rw [hsplit, findIdx_replicate_zero_cons]
    rw [hcount, hfind]
    simp

/-- A sample 20-byte address used by witnesses. -/
def addrWit : List Nat := List.replicate 20 0

/-- Witness for C3 at the all-zero address. -/
theorem zero_metrics_spec_witness :
    addrWit.length = 20 ∧
    ((cpuZeroMetrics addrWit).1 = addrWit.count 0 ∧
      (cpuZeroMetrics addrWit).2 =
        (if ∀ b ∈ addrWit, b = 0 then 21 else addrWit.findIdx fun b => b ≠ 0) ∧
      gpuZeroMetrics addrWit = cpuZeroMetrics addrWit ∧
      (∀ k t, k ≤ t → t < 20 → cpuZeroMetrics (craftedAddress k t) = (t, k))) :=
  ⟨by decide, zero_metrics_spec addrWit (by decide)⟩

/-! ## C4 -/

/-- C4: a CPU-path candidate is reported (the report carries the reward
label) if and only if `total ≥ 3` and the reward table has an entry for
`leading * 20 + total`; on acceptance the reported label is exactly the
table's entry, and otherwise the candidate produces nothing. -/
theorem cpu_accept_iff (rewards : Nat → Option String) (address : List Nat)
    (h20 : address.length = 20) :
    ((cpuCandidateReport rewards address).isSome = true ↔
      3 ≤ (cpuZeroMetrics address).1 ∧
        (rewards ((cpuZeroMetrics address).2 * 20 +
          (cpuZeroMetrics address).1)).isSome = true) ∧
    (∀ r, cpuCandidateReport rewards address = some r →
      rewards ((cpuZeroMetrics address).2 * 20 + (cpuZeroMetrics address).1) = some r) := by
  constructor
  · by_cases h3 : (cpuZeroMetrics address).1 < 3
    · rw [cpuCandidateReport, if_pos h3]
      simp only [Option.isSome_none, Bool.false_eq_true, false_iff]
      intro hcon
      exact absurd hcon.1 (by omega)
    · rw [cpuCandidateReport, if_neg h3]
      cases hr : rewards ((cpuZeroMetrics address).2 * 20 + (cpuZeroMetrics address).1) with
      | none => simp
      | some r =>
        simp only [Option.isSome_some, true_iff, hr]
        exact ⟨by omega, trivial⟩
  · intro r hrep
    by_cases h3 : (cpuZeroMetrics address).1 < 3
    · rw [cpuCandidateReport, if_pos h3] at hrep
      exact absurd hrep (by simp)
    · rw [cpuCandidateReport, if_neg h3] at hrep
      cases hr : rewards ((cpuZeroMetrics address).2 * 20 + (cpuZeroMetrics address).1) with
      | none => rw [hr] at hrep; simp at hrep
      | some r' =>
        rw [hr] at hrep
        simp only at hrep
        exact hrep

/-- A sample reward table for witnesses: one entry at key 440
(`leading = 21`, `total = 20`, the all-zero address). -/
def rewardsWit : Nat → Option String :=
  fun k => if k = 440 then some "top" else none

/-- Witness for C4 at the all-zero address. -/
theorem cpu_accept_iff_witness :
    addrWit.length = 20 ∧
    (((cpuCandidateReport rewardsWit addrWit).isSome = true ↔
      3 ≤ (cpuZeroMetrics addrWit).1 ∧
        (rewardsWit ((cpuZeroMetrics addrWit).2 * 20 +
          (cpuZeroMetrics addrWit).1)).isSome = true) ∧
    (∀ r, cpuCandidateReport rewardsWit addrWit = some r →
      rewardsWit ((cpuZeroMetrics addrWit).2 * 20 + (cpuZeroMetrics addrWit).1) =
        some r)) :=
  ⟨by decide, cpu_accept_iff rewardsWit addrWit (by decide)⟩

/-! ## C5 -/

/-- The Drain phase visits exactly the non-zero solution words, in order,
producing one result per such word. -/
theorem gpuDrain_eq_map_filter (rewards : Nat → Option String) (cfg : Config)
    (salt4 : List Nat) (solutions : List Nat) :
    gpuDrain rewards cfg salt4 solutions =
      (solutions.filter fun s => s ≠ 0).map fun s =>
        (gpuSolutionAddress cfg salt4 s,
          (rewards (gpuSolutionKey cfg salt4 s)).getD "0") := by
  induction solutions with
  | nil => rfl
  | cons s rest ih =>
    by_cases hs : s = 0
    · subst hs
      simpa [gpuDrain, List.filterMap_cons, gpuProcessSolution, List.filter_cons]
        using ih
    · simp only [gpuDrain, List.filterMap_cons, gpuProcessSolution, if_neg hs,
        List.filter_cons] at ih ⊢
      simp [hs, ih]

/-- C5: in the Drain phase every non-zero 64-bit solution word is
processed: the host builds the 85-byte message `0xFF ++ factory ++ caller
++ salt4 ++ solution8 (little-endian) ++ init_code_hash`, re-hashes it to
derive the address and reward label, and forwards one result per non-zero
word; an unmapped reward-table key yields the label `"0"` rather than a
failure. -/
theorem gpu_drain_spec (rewards : Nat → Option String) (cfg : Config)
    (salt4 : List Nat) (solutions : List Nat)
    (hf : cfg.factory_address.length = 20) (hc : cfg.calling_address.length = 20)
    (hh : cfg.init_code_hash.length = 32) (hs4 : salt4.length = 4) :
    gpuDrain rewards cfg salt4 solutions =
      ((solutions.filter fun s => s ≠ 0).map fun s =>
        (gpuSolutionAddress cfg salt4 s,
          (rewards (gpuSolutionKey cfg salt4 s)).getD "0")) ∧
    (∀ s, s ≠ 0 →
      gpuProcessSolution rewards cfg salt4 s =
        some (gpuSolutionAddress cfg salt4 s,
          (rewards (gpuSolutionKey cfg salt4 s)).getD "0") ∧
      gpuSolutionMessage cfg salt4 s =
        [CONTROL_CHARACTER] ++ cfg.factory_address ++ cfg.calling_address ++
          salt4 ++ leBytes 8 s ++ cfg.init_code_hash ∧
      (gpuSolutionMessage cfg salt4 s).length = 85 ∧
      gpuSolutionAddress cfg salt4 s =
        (keccak256 (gpuSolutionMessage cfg salt4 s)).drop 12 ∧
      (rewards (gpuSolutionKey cfg salt4 s) = none →
        gpuProcessSolution rewards cfg salt4 s =
          some (gpuSolutionAddress cfg salt4 s, "0"))) := by
  refine ⟨gpuDrain_eq_map_filter rewards cfg salt4 solutions, ?_⟩
  intro s hs
  refine ⟨by rw [gpuProcessSolution, if_neg hs], rfl, ?_, rfl, ?_⟩
  · simp [gpuSolutionMessage, leBytes, hf, hc, hh, hs4]
  · intro hnone
    rw [gpuProcessSolution, if_neg hs, hnone]
    rfl

/-- Witness for C5: all-zero configuration, zero salt, solution buffer
`[0, 7]`. -/
theorem gpu_drain_spec_witness :
    (cfgZero.factory_address.length = 20 ∧ cfgZero.calling_address.length = 20 ∧
      cfgZero.init_code_hash.length = 32 ∧ (List.replicate 4 0).length = 4) ∧
    (gpuDrain rewardsWit cfgZero (List.replicate 4 0) [0, 7] =
      (([0, 7].filter fun s => s ≠ 0).map fun s =>
        (gpuSolutionAddress cfgZero (List.replicate 4 0) s,
          (rewardsWit (gpuSolutionKey cfgZero (List.replicate 4 0) s)).getD "0")) ∧
    (∀ s, s ≠ 0 →
      gpuProcessSolution rewardsWit cfgZero (List.replicate 4 0) s =
        some (gpuSolutionAddress cfgZero (List.replicate 4 0) s,
          (rewardsWit (gpuSolutionKey cfgZero (List.replicate 4 0) s)).getD "0") ∧
      gpuSolutionMessage cfgZero (List.replicate 4 0) s =
        [CONTROL_CHARACTER] ++ cfgZero.factory_address ++ cfgZero.calling_address ++
          List.replicate 4 0 ++ leBytes 8 s ++ cfgZero.init_code_hash ∧
      (gpuSolutionMessage cfgZero (List.replicate 4 0) s).length = 85 ∧
      gpuSolutionAddress cfgZero (List.replicate 4 0) s =
        (keccak256 (gpuSolutionMessage cfgZero (List.replicate 4 0) s)).drop 12 ∧
      (rewardsWit (gpuSolutionKey cfgZero (List.replicate 4 0) s) = none →
        gpuProcessSolution rewardsWit cfgZero (List.replicate 4 0) s =
          some (gpuSolutionAddress cfgZero (List.replicate 4 0) s, "0")))) :=
  ⟨⟨by decide, by decide, by decide, by decide⟩,
    gpu_drain_spec rewardsWit cfgZero (List.replicate 4 0) [0, 7]
      (by decide) (by decide) (by decide) (by decide)⟩

/-! ## C6 -/

/-- C6 counterexample: at the all-zero configuration the byte `#define`
lines number 72 (`S_1`..`S_40` and `S_53`..`S_84`), not 56. -/
theorem kernel_defines_count_cex :
    (kernelByteDefs cfgZero).length = 72 ∧ (72 : Nat) ≠ 56 := by
  constructor
  · rfl
  · decide

/-- C6 (amended): `mk_kernel_src` prepends one integer `#define` per byte
of `factory ++ caller ++ init_code_hash` — 72 constants: `S_{j+1}` for
byte `j` of `factory ++ caller` (names `S_1`..`S_40`) and `S_{j+53}` for
byte `j` of the init-code hash (names `S_53`..`S_84`) — plus the two
threshold constants, followed by the unmodified kernel source text. -/
theorem mk_kernel_src_spec (cfg : Config) (ks : String)
    (hf : cfg.factory_address.length = 20) (hc : cfg.calling_address.length = 20)
    (hh : cfg.init_code_hash.length = 32) :
    (kernelByteDefs cfg).length = 72 ∧
    (∀ j, j < 40 → (kernelByteDefs cfg)[j]? =
      some (defineByteLine (j + 1)
        ((cfg.factory_address ++ cfg.calling_address).getD j 0))) ∧
    (∀ j, j < 32 → (kernelByteDefs cfg)[40 + j]? =
      some (defineByteLine (j + 53) (cfg.init_code_hash.getD j 0))) ∧
    mkKernelSrc cfg ks =
      String.join (kernelByteDefs cfg) ++
        ("#define LEADING_ZEROES " ++ toString cfg.leading_zeroes_threshold ++ "\n") ++
        ("#define TOTAL_ZEROES " ++ toString cfg.total_zeroes_threshold ++ "\n") ++
        ks := by
  have hlen40 : (cfg.factory_address ++ cfg.calling_address).length = 40 := by
    simp [hf, hc]
  refine ⟨?_, ?_, ?_, rfl⟩
  · simp [kernelByteDefs, kernelBytePairs, hf, hc, hh]
  · intro j hj
    have hj40 : j < (cfg.factory_address ++ cfg.calling_address).length := by omega
    rw [kernelByteDefs, kernelBytePairs, List.getElem?_map, List.getElem?_append,
      if_pos (by simpa using hj40), List.getElem?_enum,
      List.getElem?_eq_getElem hj40]
    simp [List.getD_eq_getElem?_getD, List.getElem?_eq_getElem hj40]
  · intro j hj
    have hjh : j < cfg.init_code_hash.length := by omega
    rw [kernelByteDefs, kernelBytePairs, List.getElem?_map,
      List.getElem?_append_right (by simp only [List.enum_length, hlen40]; omega)]
    have hidx : 40 + j - ((cfg.factory_address ++ cfg.calling_address).enum).length
        = j := by
      simp [hlen40]
    rw [hidx, List.getElem?_map, List.getElem?_enum,
      List.getElem?_eq_getElem hjh]
    have h53 : j + 52 + 1 = j + 53 := by omega
    simp [List.getD_eq_getElem?_getD, List.getElem?_eq_getElem hjh, h53]

/-- Witness for C6 (amended) at the all-zero configuration. -/
theorem mk_kernel_src_spec_witness :
    (cfgZero.factory_address.length = 20 ∧ cfgZero.calling_address.length = 20 ∧
      cfgZero.init_code_hash.length = 32) ∧
    ((kernelByteDefs cfgZero).length = 72 ∧
    (∀ j, j < 40 → (kernelByteDefs cfgZero)[j]? =
      some (defineByteLine (j + 1)
        ((cfgZero.factory_address ++ cfgZero.calling_address).getD j 0))) ∧
    (∀ j, j < 32 → (kernelByteDefs cfgZero)[40 + j]? =
      some (defineByteLine (j + 53) (cfgZero.init_code_hash.getD j 0))) ∧
    mkKernelSrc cfgZero "kernel-src-text" =
      String.join (kernelByteDefs cfgZero) ++
        ("#define LEADING_ZEROES " ++ toString cfgZero.leading_zeroes_threshold ++ "\n") ++
        ("#define TOTAL_ZEROES " ++ toString cfgZero.total_zeroes_threshold ++ "\n") ++
        "kernel-src-text") :=
  ⟨⟨by decide, by decide, by decide⟩,
    mk_kernel_src_spec cfgZero "kernel-src-text"
      (by decide) (by decide) (by decide)⟩

/-! ## C7 -/

/-- C7 counterexample: with valid hex arguments and the unparsable string
`"foo"` as the gpu-device argument, `Config::new` errors even though none
of the conditions listed by the claim (missing argument, undecodable hex,
wrong byte length, out-of-range threshold) holds. -/
theorem config_new_rejects_unparsable_gpu :
    configNew
        ["create2crunch",
         "0000000000000000000000000000000000000000",
         "0000000000000000000000000000000000000000",
         "0000000000000000000000000000000000000000000000000000000000000000",
         "foo"] =
      .error "invalid gpu device value" ∧
    hexDecode "0000000000000000000000000000000000000000" =
      some (List.replicate 20 0) ∧
    hexDecode "0000000000000000000000000000000000000000000000000000000000000000" =
      some (List.replicate 32 0) ∧
    parseU8 "3" = some 3 ∧ parseU8 "5" = some 5 ∧ parseU8 "foo" = none := by
  refine ⟨rfl, rfl, rfl, rfl, rfl, rfl⟩

/-- C7 (amended): `Config::new` succeeds exactly when the three hex
arguments are present and decode to byte strings of lengths 20/20/32, the
gpu-device and two threshold arguments (defaulted to `"255"`, `"3"`,
`"5"` when absent) parse as `u8`, the leading threshold is at most 20 and
the total threshold is at most 20 or the sentinel 255; the resulting
`Config` carries exactly the decoded values.  Any other input (including
an unparsable numeric argument, which the original claim omitted) yields
a descriptive error. -/
theorem config_new_validation (argv : List String) (c : Config) :
    configNew argv = .ok c ↔
      ∃ fs cs hs fv cv hv g l t,
        (argv.drop 1).get? 0 = some fs ∧
        (argv.drop 1).get? 1 = some cs ∧
        (argv.drop 1).get? 2 = some hs ∧
        hexDecode fs = some fv ∧ hexDecode cs = some cv ∧ hexDecode hs = some hv ∧
        fv.length = 20 ∧ cv.length = 20 ∧ hv.length = 32 ∧
        parseU8 (((argv.drop 1).get? 3).getD "255") = some g ∧
        parseU8 (((argv.drop 1).get? 4).getD "3") = some l ∧
        parseU8 (((argv.drop 1).get? 5).getD "5") = some t ∧
        l ≤ 20 ∧ (t ≤ 20 ∨ t = 255) ∧
        c = ⟨fv, cv, hv, g, l, t⟩ := by
  constructor
  · intro h
    simp only [configNew] at h
    cases e0 : (argv.drop 1).get? 0 with
    | none => rw [e0] at h; simp at h
    | some fs =>
    cases e1 : (argv.drop 1).get? 1 with
    | none => rw [e0, e1] at h; simp at h
    | some cs =>
    cases e2 : (argv.drop 1).get? 2 with
    | none => rw [e0, e1, e2] at h; simp at h
    | some hs =>
    rw [e0, e1, e2] at h
    simp only at h
    cases ef : hexDecode fs with
    | none => rw [ef] at h; simp at h
    | some fv =>
    cases ec : hexDecode cs with
    | none => rw [ef, ec] at h; simp at h
    | some cv =>
    cases eh : hexDecode hs with
    | none => rw [ef, ec, eh] at h; simp at h
    | some hv =>
    rw [ef, ec, eh] at h
    simp only at h
    by_cases hlf : fv.length = 20
    swap
    · rw [if_pos hlf] at h; simp at h
    rw [if_neg (by simp [hlf])] at h
    by_cases hlc : cv.length = 20
    swap
    · rw [if_pos hlc] at h; simp at h
    rw [if_neg (by simp [hlc])] at h
    by_cases hlh : hv.length = 32
    swap
    · rw [if_pos hlh] at h; simp at h
    rw [if_neg (by simp [hlh])] at h
    cases pg : parseU8 (((argv.drop 1).get? 3).getD "255") with
    | none => rw [pg] at h; simp at h
    | some g =>
    cases pl : parseU8 (((argv.drop 1).get? 4).getD "3") with
    | none => rw [pg, pl] at h; simp at h
    | some l =>
    cases pt : parseU8 (((argv.drop 1).get? 5).getD "5") with
    | none => rw [pg, pl, pt] at h; simp at h
    | some t =>
    rw [pg, pl, pt] at h
    simp only at h
    by_cases hl20 : l > 20
    · rw [if_pos hl20] at h; simp at h
    rw [if_neg hl20] at h
    by_cases ht : t > 20 ∧ t ≠ 255
    · rw [if_pos ht] at h; simp at h
    rw [if_neg ht] at h
    simp only [Except.ok.injEq] at h
    exact ⟨fs, cs, hs, fv, cv, hv, g, l, t, rfl, rfl, rfl, ef, ec, eh, hlf, hlc, hlh,
      rfl, rfl, rfl, by omega, by omega, h.symm⟩
  · rintro ⟨fs, cs, hs, fv, cv, hv, g, l, t, e0, e1, e2, ef, ec, eh, hlf, hlc, hlh,
      pg, pl, pt, hl20, ht, rfl⟩
    simp only [configNew]
    rw [e0, e1, e2]
    simp only
    rw [ef, ec, eh]
    simp only
    rw [if_neg (by simp [hlf]), if_neg (by simp [hlc]), if_neg (by simp [hlh]),
      pg, pl, pt]
    simp only
    rw [if_neg (by omega), if_neg (by omega)]

/-! ## C10 -/

/-- C10: when the three optional arguments are absent, `Config::new`
succeeds (given well-formed hex arguments) with `gpu_device = 255` (the
CPU sentinel), `leading_zeroes_threshold = 3` and
`total_zeroes_threshold = 5`. -/
theorem config_defaults (p f c h : String) (fv cv hv : List Nat)
    (hdf : hexDecode f = some fv) (hdc : hexDecode c = some cv)
    (hdh : hexDecode h = some hv) (hlf : fv.length = 20) (hlc : cv.length = 20)
    (hlh : hv.length = 32) :
    configNew [p, f, c, h] = .ok ⟨fv, cv, hv, 255, 3, 5⟩ := by
  simp only [configNew, List.drop, List.get?]
  rw [hdf, hdc, hdh]
  simp only
  rw [if_neg (by simp [hlf]), if_neg (by simp [hlc]), if_neg (by simp [hlh])]
  have p255 : parseU8 "255" = some 255 := rfl
  have p3 : parseU8 "3" = some 3 := rfl
  have p5 : parseU8 "5" = some 5 := rfl
  simp only [Option.getD]
  rw [p255, p3, p5]
  simp only
  rw [if_neg (by omega), if_neg (by omega)]

/-- Witness for C10 on concrete well-formed arguments. -/
theorem config_defaults_witness :
    (hexDecode "0000000000000000000000000000000000000000" =
        some (List.replicate 20 0) ∧
      hexDecode "0000000000000000000000000000000000000000000000000000000000000000" =
        some (List.replicate 32 0) ∧
      (List.replicate 20 (0 : Nat)).length = 20 ∧
      (List.replicate 32 (0 : Nat)).length = 32) ∧
    configNew
        ["create2crunch",
         "0000000000000000000000000000000000000000",
         "0000000000000000000000000000000000000000",
         "0000000000000000000000000000000000000000000000000000000000000000"] =
      .ok ⟨List.replicate 20 0, List.replicate 20 0, List.replicate 32 0,
        255, 3, 5⟩ :=
  ⟨⟨rfl, rfl, rfl, rfl⟩,
    config_defaults "create2crunch" _ _ _ _ _ _ rfl rfl rfl rfl rfl rfl⟩

/-! ## C9 -/

/-- The `i`-th dispatched nonce value of an inner loop started at
`start < 2^32` is `(start + i) % 2^32`. -/
theorem dispatchTrace_getD (kernel : Nat → List Nat) :
    ∀ (fuel start : Nat), start < NONCE_MOD →
      ∀ i, i < (dispatchTrace kernel start fuel).length →
        (dispatchTrace kernel start fuel).getD i 0 = (start + i) % NONCE_MOD := by
  intro fuel
  induction fuel with
  | zero => intro start _ i hi; simp [dispatchTrace] at hi
  | succ f ih =>
    intro start hstart i hi
    have hM : NONCE_MOD = 4294967296 := by norm_num [NONCE_MOD]
    rw [dispatchTrace] at hi ⊢
    by_cases hk : (kernel start).any (· ≠ 0)
    · rw [if_pos hk] at hi ⊢
      simp only [List.length_singleton] at hi
      have hi0 : i = 0 := by omega
      subst hi0
      simp only [List.getD_cons_zero]
      rw [Nat.add_zero, Nat.mod_eq_of_lt hstart]
    · rw [if_neg hk] at hi ⊢
      cases i with
      | zero =>
        simp only [List.getD_cons_zero]
        rw [Nat.add_zero, Nat.mod_eq_of_lt hstart]
      | succ j =>
        simp only [List.length_cons] at hi
        have hstep : nonceStep start < NONCE_MOD := by
          rw [nonceStep]
          exact Nat.mod_lt _ (by rw [hM]; norm_num)
        have hrec := ih (nonceStep start) hstep j (by omega)
        rw [List.getD_cons_succ, hrec, nonceStep, hM]
        omega

/-- A trace with positive fuel is never empty (every iteration dispatches
at least once before deciding). -/
theorem dispatchTrace_ne_nil (kernel : Nat → List Nat) (start fuel : Nat)
    (hfuel : 0 < fuel) : dispatchTrace kernel start fuel ≠ [] := by
  cases fuel with
  | zero => omega
  | succ f =>
    rw [dispatchTrace]
    by_cases hk : (kernel start).any (· ≠ 0)
    · rw [if_pos hk]; simp
    · rw [if_neg hk]; simp

/-- The inner loop's returned nonce is the final trace entry: the nonce is
not reset when a match ends the loop, and the returned solutions are the
kernel's output at exactly that nonce. -/
theorem innerSearch_last (kernel : Nat → List Nat) :
    ∀ (fuel start nf : Nat) (sols : List Nat),
      innerSearch kernel start fuel = some (nf, sols) →
      sols = kernel nf ∧ (kernel nf).any (· ≠ 0) = true ∧
      (dispatchTrace kernel start fuel).getD
        ((dispatchTrace kernel start fuel).length - 1) 0 = nf := by
  intro fuel
  induction fuel with
  | zero => intro start nf sols h; simp [innerSearch] at h
  | succ f ih =>
    intro start nf sols h
    rw [innerSearch] at h
    rw [dispatchTrace]
    by_cases hk : (kernel start).any (· ≠ 0)
    · rw [if_pos hk] at h
      simp only [Option.some.injEq, Prod.mk.injEq] at h
      obtain ⟨rfl, rfl⟩ := h
      rw [if_pos hk]
      exact ⟨rfl, hk, rfl⟩
    · rw [if_neg hk] at h
      have hf : 0 < f := by
        cases f with
        | zero => simp [innerSearch] at h
        | succ _ => omega
      obtain ⟨h1, h2, h3⟩ := ih (nonceStep start) nf sols h
      refine ⟨h1, h2, ?_⟩
      rw [if_neg hk]
      have hne := dispatchTrace_ne_nil kernel (nonceStep start) f hf
      have hlen : 0 < (dispatchTrace kernel (nonceStep start) f).length :=
        List.length_pos.mpr hne
      rw [List.length_cons]
      have hidx : (dispatchTrace kernel (nonceStep start) f).length + 1 - 1 =
          ((dispatchTrace kernel (nonceStep start) f).length - 1) + 1 := by omega
      rw [hidx, List.getD_cons_succ]
      exact h3

/-- C9 counterexample: with a kernel that never reports a solution and the
device nonce word at `2^32 - 1`, the next dispatch uses nonce 0, not
`2^32 - 1 + 1`: the `u32` word wraps, so the nonce is not always
"incremented by exactly one" and a value can repeat within an outer
iteration that runs longer than `2^32` dispatches. -/
theorem gpu_nonce_wraps :
    dispatchTrace (fun _ => List.replicate 64 0) (NONCE_MOD - 1) 2 =
      [NONCE_MOD - 1, 0] ∧
    (0 : Nat) ≠ (NONCE_MOD - 1) + 1 := by
  constructor
  · rw [dispatchTrace]
    rw [if_neg (by simp)]
    rw [dispatchTrace]
    rw [if_neg (by simp)]
    rw [dispatchTrace]
    have : nonceStep (NONCE_MOD - 1) = 0 := by
      simp only [nonceStep, NONCE_MOD]
      norm_num
    rw [this]
  · simp only [NONCE_MOD]
    norm_num

/-- C9 (amended): each outer iteration starts with the nonce word set to a
fresh random 32-bit value and the solutions buffer cleared; between
consecutive no-solution dispatches the nonce word advances by exactly one
modulo `2^32` (wrapping at the `u32` boundary); the nonce is not reset
when a match ends the inner loop; and within the first `min(fuel, 2^32)`
dispatches of an outer iteration no nonce value repeats. -/
theorem gpu_nonce_discipline (salt4 : List Nat) (rnd : Nat)
    (kernel : Nat → List Nat) (fuel : Nat) (hfuel : fuel ≤ NONCE_MOD) :
    (rollSegment salt4 rnd).nonce = rnd % NONCE_MOD ∧
    (rollSegment salt4 rnd).solutions = List.replicate 64 0 ∧
    (∀ i, i + 1 < (dispatchTrace kernel (rollSegment salt4 rnd).nonce fuel).length →
      (dispatchTrace kernel (rollSegment salt4 rnd).nonce fuel).getD (i + 1) 0 =
        nonceStep
          ((dispatchTrace kernel (rollSegment salt4 rnd).nonce fuel).getD i 0)) ∧
    (dispatchTrace kernel (rollSegment salt4 rnd).nonce fuel).Nodup ∧
    (∀ nf sols,
      innerSearch kernel (rollSegment salt4 rnd).nonce fuel = some (nf, sols) →
      sols = kernel nf ∧ (kernel nf).any (· ≠ 0) = true ∧
      (dispatchTrace kernel (rollSegment salt4 rnd).nonce fuel).getD
        ((dispatchTrace kernel (rollSegment salt4 rnd).nonce fuel).length - 1) 0 =
        nf) := by
  have hstart : (rollSegment salt4 rnd).nonce < NONCE_MOD := by
    simp only [rollSegment, NONCE_MOD]
    omega
  have hlenle : ∀ f s, (dispatchTrace kernel s f).length ≤ f := by
    intro f
    induction f with
    | zero => intro s; simp [dispatchTrace]
    | succ g ihg =>
      intro s
      rw [dispatchTrace]
      by_cases hk : (kernel s).any (· ≠ 0)
      · rw [if_pos hk]; simp
      · rw [if_neg hk]
        simp only [List.length_cons]
        exact Nat.succ_le_succ (ihg _)
  refine ⟨rfl, rfl, ?_, ?_, ?_⟩
  · intro i hi
    rw [dispatchTrace_getD kernel fuel _ hstart (i + 1) hi,
      dispatchTrace_getD kernel fuel _ hstart i (by omega)]
    simp only [nonceStep, NONCE_MOD]
    omega
  · rw [List.nodup_iff_injective_get]
    intro a b hab
    have ha := dispatchTrace_getD kernel fuel _ hstart a.1 a.2
    have hb := dispatchTrace_getD kernel fuel _ hstart b.1 b.2
    rw [List.getD_eq_getElem?_getD, List.getElem?_eq_getElem a.2] at ha
    rw [List.getD_eq_getElem?_getD, List.getElem?_eq_getElem b.2] at hb
    have hlen := hlenle fuel (rollSegment salt4 rnd).nonce
    have ha2 := a.2
    have hb2 := b.2
    have : ((rollSegment salt4 rnd).nonce + a.1) % NONCE_MOD =
        ((rollSegment salt4 rnd).nonce + b.1) % NONCE_MOD := by
      rw [← ha, ← hb]
      simp only [List.get_eq_getElem, Option.getD_some] at hab ⊢
      rw [hab]
    have hM : NONCE_MOD = 4294967296 := by norm_num [NONCE_MOD]
    rw [hM] at this
    rw [hM] at hfuel
    have hao : a.1 = b.1 := by omega
    exact Fin.eq_of_val_eq hao
  · intro nf sols h
    exact innerSearch_last kernel fuel _ nf sols h

/-- Witness for C9 with a kernel that reports a solution at the second
dispatch. -/
theorem gpu_nonce_discipline_witness :
    (2 : Nat) ≤ NONCE_MOD ∧
    ((rollSegment (List.replicate 4 0) 5).nonce = 5 % NONCE_MOD ∧
      (rollSegment (List.replicate 4 0) 5).solutions = List.replicate 64 0 ∧
      (∀ i, i + 1 <
          (dispatchTrace (fun n => if n = 6 then [9] else [0])
            (rollSegment (List.replicate 4 0) 5).nonce 2).length →
        (dispatchTrace (fun n => if n = 6 then [9] else [0])
            (rollSegment (List.replicate 4 0) 5).nonce 2).getD (i + 1) 0 =
          nonceStep
            ((dispatchTrace (fun n => if n = 6 then [9] else [0])
              (rollSegment (List.replicate 4 0) 5).nonce 2).getD i 0)) ∧
      (dispatchTrace (fun n => if n = 6 then [9] else [0])
        (rollSegment (List.replicate 4 0) 5).nonce 2).Nodup ∧
      (∀ nf sols,
        innerSearch (fun n => if n = 6 then [9] else [0])
            (rollSegment (List.replicate 4 0) 5).nonce 2 = some (nf, sols) →
        sols = (fun n => if n = 6 then [9] else [0]) nf ∧
        ((fun n => if n = 6 then [9] else [0]) nf).any (· ≠ 0) = true ∧
        (dispatchTrace (fun n => if n = 6 then [9] else [0])
            (rollSegment (List.replicate 4 0) 5).nonce 2).getD
          ((dispatchTrace (fun n => if n = 6 then [9] else [0])
            (rollSegment (List.replicate 4 0) 5).nonce 2).length - 1) 0 = nf)) :=
  ⟨by norm_num [NONCE_MOD],
    gpu_nonce_discipline (List.replicate 4 0) 5 (fun n => if n = 6 then [9] else [0])
      2 (by norm_num [NONCE_MOD])⟩

end Create2Crunch
